import Mathlib

/-!
Verification development for the macrochain message-queue core
(`scraper/pkg/queue/queue.go` and `scraper/pkg/queue/redis.go`).

The Go code is shallowly embedded:
* `Message` mirrors the `queue.Message` struct (bytes as `List Nat` with the
  well-formedness bound `b < 256`, instants as nanoseconds since the epoch).
* The wire format of `json.Marshal` / `json.Unmarshal` applied to `Message`
  is embedded at the JSON-value level (`Json`): `[]byte` marshals to a
  standard-base64 string, `time.Time` marshals to an RFC3339 string — an
  injective textual encoding of the instant that fails for years outside
  [0,9999] — which we model by the decimal-nanoseconds string together with
  the same failure bound, and `map[string]string` marshals to an object.
* Effectful calls (uuid generation, clock reads, the publish call, the
  subscription handshake, broker deliveries, select outcomes) are inputs of
  the embedded functions, so each theorem quantifies over every behaviour of
  the collaborators.
-/

namespace Macrochain

/-! ### Standard base64 (encoding/base64 StdEncoding), as used by json.Marshal for []byte -/

def b64Alphabet : List Char :=
  ['A','B','C','D','E','F','G','H','I','J','K','L','M','N','O','P',
   'Q','R','S','T','U','V','W','X','Y','Z',
   'a','b','c','d','e','f','g','h','i','j','k','l','m','n','o','p',
   'q','r','s','t','u','v','w','x','y','z',
   '0','1','2','3','4','5','6','7','8','9','+','/']

/-- Character for a six-bit group (only invoked with `n < 64`). -/
def sextetChar (n : Nat) : Char := b64Alphabet.getD n 'A'

def charIndex : List Char → Char → Option Nat
  | [], _ => none
  | a :: rest, c => if a = c then some 0 else (charIndex rest c).map (· + 1)

/-- Inverse of `sextetChar`: the six-bit value of an alphabet character. -/
def charSextet (c : Char) : Option Nat := charIndex b64Alphabet c

/-- Standard base64 encoding of a byte sequence, including `=` padding. -/
def b64Encode : List Nat → List Char
  | [] => []
  | [a] => [sextetChar (a / 4), sextetChar (a % 4 * 16), '=', '=']
  | [a, b] => [sextetChar (a / 4), sextetChar (a % 4 * 16 + b / 16),
               sextetChar (b % 16 * 4), '=']
  | a :: b :: c :: rest =>
      sextetChar (a / 4) :: sextetChar (a % 4 * 16 + b / 16) ::
      sextetChar (b % 16 * 4 + c / 64) :: sextetChar (c % 64) :: b64Encode rest

/-- Standard base64 decoding; `none` on data that is not a padded quantum stream. -/
def b64Decode : List Char → Option (List Nat)
  | [] => some []
  | w :: x :: y :: z :: rest =>
      (match charSextet w, charSextet x, charSextet y, charSextet z with
       | some w', some x', some y', some z' =>
           (match b64Decode rest with
            | some l => some ((w' * 4 + x' / 16) :: (x' % 16 * 16 + y' / 4) ::
                              (y' % 4 * 64 + z') :: l)
            | none => none)
       | some w', some x', some y', none =>
           if z = '=' ∧ rest = [] then
             some [w' * 4 + x' / 16, x' % 16 * 16 + y' / 4]
           else none
       | some w', some x', none, none =>
           if y = '=' ∧ z = '=' ∧ rest = [] then some [w' * 4 + x' / 16] else none
       | _, _, _, _ => none)
  | _ => none

theorem charSextet_sextetChar : ∀ i : Fin 64, charSextet (sextetChar i.val) = some i.val := by
  decide

theorem charSextet_sextetChar_of_lt {n : Nat} (h : n < 64) :
    charSextet (sextetChar n) = some n :=
  charSextet_sextetChar ⟨n, h⟩

theorem charSextet_eq : charSextet '=' = none := by decide

theorem b64_byte1 {a b : Nat} (_ha : a < 256) (hb : b < 256) :
    a / 4 * 4 + (a % 4 * 16 + b / 16) / 16 = a := by
  have h1 : a % 4 * 16 + b / 16 = b / 16 + 16 * (a % 4) := by ring
  have h2 : b / 16 / 16 = 0 := Nat.div_eq_of_lt (by omega)
  rw [h1, Nat.add_mul_div_left _ _ (by norm_num), h2]
  omega

theorem b64_byte2 {a b c : Nat} (hb : b < 256) (hc : c < 256) :
    (a % 4 * 16 + b / 16) % 16 * 16 + (b % 16 * 4 + c / 64) / 4 = b := by
  have h1 : a % 4 * 16 + b / 16 = b / 16 + 16 * (a % 4) := by ring
  have h2 : (b / 16 + 16 * (a % 4)) % 16 = b / 16 % 16 := Nat.add_mul_mod_self_left _ _ _
  have h3 : b / 16 % 16 = b / 16 := Nat.mod_eq_of_lt (by omega)
  have h4 : b % 16 * 4 + c / 64 = c / 64 + 4 * (b % 16) := by ring
  have h5 : c / 64 / 4 = 0 := Nat.div_eq_of_lt (by omega)
  rw [h1, h2, h3, h4, Nat.add_mul_div_left _ _ (by norm_num), h5]
  omega

theorem b64_byte3 {b c : Nat} (hc : c < 256) :
    (b % 16 * 4 + c / 64) % 4 * 64 + c % 64 = c := by
  have h1 : b % 16 * 4 + c / 64 = c / 64 + 4 * (b % 16) := by ring
  have h2 : (c / 64 + 4 * (b % 16)) % 4 = c / 64 % 4 := Nat.add_mul_mod_self_left _ _ _
  have h3 : c / 64 % 4 = c / 64 := Nat.mod_eq_of_lt (by omega)
  rw [h1, h2, h3]
  omega

/-- Decoding inverts encoding on genuine byte sequences. -/
theorem b64_roundtrip : ∀ l : List Nat, (∀ b ∈ l, b < 256) →
    b64Decode (b64Encode l) = some l := by
  have main : ∀ n l, List.length l ≤ n → (∀ b ∈ l, b < 256) →
      b64Decode (b64Encode l) = some l := by
    intro n
    induction n with
    | zero =>
      intro l hlen _
      have : l = [] := List.length_eq_zero.mp (Nat.le_zero.mp hlen)
      subst this
      simp [b64Encode, b64Decode]
    | succ n ih =>
      intro l hlen hb
      match l with
      | [] => simp [b64Encode, b64Decode]
      | [a] =>
        have ha : a < 256 := hb a (by simp)
        have h1 : a / 4 < 64 := by omega
        have h2 : a % 4 * 16 < 64 := by omega
        have hv : a % 4 * 16 / 16 = a % 4 := Nat.mul_div_cancel _ (by norm_num)
        simp only [b64Encode, b64Decode, charSextet_sextetChar_of_lt h1,
          charSextet_sextetChar_of_lt h2, charSextet_eq]
        simp only [and_self, if_true]
        rw [hv]
        have : a / 4 * 4 + a % 4 = a := by omega
        rw [this]
      | [a, b] =>
        have ha : a < 256 := hb a (by simp)
        have hbb : b < 256 := hb b (by simp)
        have h1 : a / 4 < 64 := by omega
        have h2 : a % 4 * 16 + b / 16 < 64 := by omega
        have h3 : b % 16 * 4 < 64 := by omega
        simp only [b64Encode, b64Decode, charSextet_sextetChar_of_lt h1,
          charSextet_sextetChar_of_lt h2, charSextet_sextetChar_of_lt h3, charSextet_eq]
        simp only [and_self, if_true]
        have e1 : a / 4 * 4 + (a % 4 * 16 + b / 16) / 16 = a := b64_byte1 ha hbb
        have e2 : (a % 4 * 16 + b / 16) % 16 * 16 + b % 16 * 4 / 4 = b := by
          have hv : b % 16 * 4 / 4 = b % 16 := Nat.mul_div_cancel _ (by norm_num)
          have h1' : a % 4 * 16 + b / 16 = b / 16 + 16 * (a % 4) := by ring
          have h2' : (b / 16 + 16 * (a % 4)) % 16 = b / 16 % 16 :=
            Nat.add_mul_mod_self_left _ _ _
          have h3' : b / 16 % 16 = b / 16 := Nat.mod_eq_of_lt (by omega)
          rw [hv, h1', h2', h3']
          omega
        rw [e1, e2]
      | a :: b :: c :: rest =>
        have ha : a < 256 := hb a (by simp)
        have hbb : b < 256 := hb b (by simp)
        have hc : c < 256 := hb c (by simp)
        have h1 : a / 4 < 64 := by omega
        have h2 : a % 4 * 16 + b / 16 < 64 := by omega
        have h3 : b % 16 * 4 + c / 64 < 64 := by omega
        have h4 : c % 64 < 64 := by omega
        have hrest : b64Decode (b64Encode rest) = some rest := by
          apply ih
          · have : (a :: b :: c :: rest).length ≤ n + 1 := hlen
            simp only [List.length_cons] at this
            omega
          · intro x hx
            exact hb x (by simp [hx])
        simp only [b64Encode, b64Decode, charSextet_sextetChar_of_lt h1,
          charSextet_sextetChar_of_lt h2, charSextet_sextetChar_of_lt h3,
          charSextet_sextetChar_of_lt h4, hrest]
        rw [b64_byte1 ha hbb, b64_byte2 hbb hc, b64_byte3 hc]
  intro l hb
  exact main l.length l (Nat.le_refl _) hb

/-! ### Decimal numerals (the model of the RFC3339 instant string of time.Time) -/

def digitChar (d : Nat) : Char := Char.ofNat (48 + d)

def digitVal (c : Char) : Nat := c.toNat - 48

def isDigitChar (c : Char) : Bool := 48 ≤ c.toNat && c.toNat ≤ 57

/-- The textual encoding of an instant (decimal nanoseconds; stands for the
RFC3339 string `time.Time.MarshalJSON` emits, which is likewise injective). -/
def encodeNatStr (n : Nat) : String :=
  if n = 0 then "0" else String.mk ((Nat.digits 10 n).reverse.map digitChar)

/-- Parse the textual instant back (the model of RFC3339 parsing in
`time.Time.UnmarshalJSON`); fails on anything that is not a numeral. -/
def parseNatStr (s : String) : Option Nat :=
  let cs := s.toList
  if cs ≠ [] ∧ cs.all isDigitChar then
    some (Nat.ofDigits 10 ((cs.map digitVal).reverse))
  else none

theorem digitVal_digitChar {d : Nat} (h : d < 10) : digitVal (digitChar d) = d := by
  interval_cases d <;> decide

theorem isDigitChar_digitChar {d : Nat} (h : d < 10) : isDigitChar (digitChar d) = true := by
  interval_cases d <;> decide

theorem parseNatStr_encodeNatStr (n : Nat) : parseNatStr (encodeNatStr n) = some n := by
  by_cases h0 : n = 0
  · subst h0
    decide
  · have hne : Nat.digits 10 n ≠ [] := Nat.digits_ne_nil_iff_ne_zero.mpr h0
    have hlt : ∀ d ∈ Nat.digits 10 n, d < 10 := fun d hd =>
      Nat.digits_lt_base (by norm_num) hd
    unfold encodeNatStr parseNatStr
    rw [if_neg h0]
    have htl : (String.mk ((Nat.digits 10 n).reverse.map digitChar)).toList
        = (Nat.digits 10 n).reverse.map digitChar := rfl
    simp only [htl]
    rw [if_pos]
    · congr 1
      rw [List.map_map, List.map_reverse, List.reverse_reverse]
      have : List.map (digitVal ∘ digitChar) (Nat.digits 10 n) = Nat.digits 10 n := by
        calc List.map (digitVal ∘ digitChar) (Nat.digits 10 n)
            = List.map id (Nat.digits 10 n) :=
              List.map_congr_left (fun d hd => digitVal_digitChar (hlt d hd))
          _ = Nat.digits 10 n := List.map_id _
      rw [this]
      exact Nat.ofDigits_digits 10 n
    · constructor
      · simp [hne]
      · rw [List.all_eq_true]
        intro c hc
        rw [List.mem_map] at hc
        obtain ⟨d, hd, rfl⟩ := hc
        exact isDigitChar_digitChar (hlt d (List.mem_reverse.mp hd))

/-! ### JSON values and the wire format of `queue.Message`

`queue.Message` (queue.go:8-13) has exported fields `ID string`,
`Body []byte`, `Timestamp time.Time`, `Metadata map[string]string` and no
tags, so `json.Marshal` emits an object with exactly those keys. -/

inductive Json where
  | str (s : String)
  | num (n : Int)
  | null
  | obj (fields : List (String × Json))

/-- First binding of a key in a JSON object. -/
def lookupField : List (String × Json) → String → Option Json
  | [], _ => none
  | (k, v) :: rest, key => if k = key then some v else lookupField rest key

/-- The `queue.Message` struct. `Body` is the byte payload (each entry < 256 in
well-formed messages); `Timestamp` is nanoseconds since the epoch, `0` being
Go's zero `time.Time` for the purposes of `IsZero`. -/
structure Message where
  ID : String
  Body : List Nat
  Timestamp : Nat
  Metadata : List (String × String)
deriving DecidableEq

/-- Nanoseconds at which year 10000 starts: `time.Time.MarshalJSON` fails for
instants at or beyond it (year outside [0,9999]), which is the only way
`json.Marshal(message)` can fail for this field set. -/
def rfc3339MaxNanos : Nat := 253402300800000000000

/-- `json.Marshal` applied to a `Message` (redis.go:56): an object with the
field names as keys; `[]byte` as a standard-base64 string, `time.Time` as its
RFC3339 instant string (see `encodeNatStr`), the metadata map as an object. -/
def marshalMessage (m : Message) : Except String Json :=
  if m.Timestamp ≥ rfc3339MaxNanos then
    Except.error "Time.MarshalJSON: year outside of range [0,9999]"
  else
    Except.ok (Json.obj
      [("ID", Json.str m.ID),
       ("Body", Json.str (String.mk (b64Encode m.Body))),
       ("Timestamp", Json.str (encodeNatStr m.Timestamp)),
       ("Metadata", Json.obj (m.Metadata.map fun p => (p.1, Json.str p.2)))])

/-- Decode a JSON object into `map[string]string`: every value must be a
string. -/
def decodeMeta : List (String × Json) → Option (List (String × String))
  | [] => some []
  | (k, Json.str v) :: rest =>
      match decodeMeta rest with
      | some l => some ((k, v) :: l)
      | none => none
  | _ => none

/-- `json.Unmarshal` of a broker payload into a `Message` (redis.go:125):
absent fields keep their zero values, ill-typed fields or undecodable
base64 / instant strings are an unmarshal error (`none`). -/
def unmarshalMessage (j : Json) : Option Message :=
  match j with
  | Json.obj fields =>
      (match lookupField fields "ID" with
       | none => some ""
       | some (Json.str s) => some s
       | some _ => none).bind fun id =>
      (match lookupField fields "Body" with
       | none => some []
       | some (Json.str s) => b64Decode s.toList
       | some _ => none).bind fun body =>
      (match lookupField fields "Timestamp" with
       | none => some 0
       | some (Json.str s) => parseNatStr s
       | some _ => none).bind fun ts =>
      (match lookupField fields "Metadata" with
       | none => some []
       | some (Json.obj kvs) => decodeMeta kvs
       | some _ => none).bind fun meta =>
      some ⟨id, body, ts, meta⟩
  | _ => none

theorem decodeMeta_roundtrip (l : List (String × String)) :
    decodeMeta (l.map fun p => (p.1, Json.str p.2)) = some l := by
  induction l with
  | nil => rfl
  | cons p rest ih =>
    obtain ⟨k, v⟩ := p
    simp only [List.map_cons, decodeMeta, ih]

/-- Whatever `Send` encodes, the delivery task decodes byte-for-byte into the
same field values (for any message `json.Marshal` accepts). -/
theorem marshal_unmarshal (m : Message) (hbytes : ∀ b ∈ m.Body, b < 256)
    (ht : m.Timestamp < rfc3339MaxNanos) :
    ∃ j, marshalMessage m = Except.ok j ∧ unmarshalMessage j = some m := by
  refine ⟨Json.obj
      [("ID", Json.str m.ID),
       ("Body", Json.str (String.mk (b64Encode m.Body))),
       ("Timestamp", Json.str (encodeNatStr m.Timestamp)),
       ("Metadata", Json.obj (m.Metadata.map fun p => (p.1, Json.str p.2)))],
    ?_, ?_⟩
  · unfold marshalMessage
    rw [if_neg (by omega)]
  · have hid : ("Body" : String) ≠ "ID" := by decide
    have h1 : ("Timestamp" : String) ≠ "ID" := by decide
    have h2 : ("Metadata" : String) ≠ "ID" := by decide
    have h3 : ("Timestamp" : String) ≠ "Body" := by decide
    have h4 : ("Metadata" : String) ≠ "Body" := by decide
    have h5 : ("Metadata" : String) ≠ "Timestamp" := by decide
    have g0 : ("ID" : String) ≠ "Body" := by decide
    have g1 : ("ID" : String) ≠ "Timestamp" := by decide
    have g2 : ("ID" : String) ≠ "Metadata" := by decide
    have g3 : ("Body" : String) ≠ "Timestamp" := by decide
    have g4 : ("Body" : String) ≠ "Metadata" := by decide
    have g5 : ("Timestamp" : String) ≠ "Metadata" := by decide
    have hlist : (String.mk (b64Encode m.Body)).toList = b64Encode m.Body := rfl
    simp only [unmarshalMessage, lookupField, if_pos rfl, if_neg hid, if_neg h1,
      if_neg h2, if_neg h3, if_neg h4, if_neg h5, if_neg g0, if_neg g1,
      if_neg g2, if_neg g3, if_neg g4, if_neg g5, if_true, hlist,
      b64_roundtrip m.Body hbytes, parseNatStr_encodeNatStr,
      decodeMeta_roundtrip, Option.some_bind]

/-! ### `RedisQueue.Send` (redis.go:45-68)

Effectful collaborator calls are inputs: `freshId` is what
`uuid.New().String()` would return, `now` what `time.Now()` would return,
and `publishErr` the error result of `client.Publish(...).Err()`.  Because
Go maps are reference values inside a struct passed by value, the metadata
contents live in an explicit store (`MapStore`) that `Send` threads through:
a map write inside `Send` would be visible to the caller as a store change. -/

inductive QueueError where
  | serializationError (detail : String)
  | transportError (detail : String)
  | subscriptionError (detail : String)
deriving DecidableEq

/-- Heap of `map[string]string` contents; a `Message`
value holds a reference into it. -/
abbrev MapStore : Type := List (List (String × String))

/-- The `queue.Message` struct as the Go caller holds it: `Metadata` is a map
header referring into the shared store (`metadataRef`), the other fields are
plain values copied on call. -/
structure GoMessage where
  ID : String
  Body : List Nat
  Timestamp : Nat
  MetadataRef : Nat
deriving DecidableEq

/-- Read a `GoMessage` through the store into field values (what any reader,
including `json.Marshal`, observes). An out-of-range reference is Go's nil
map, which reads as empty. -/
def resolveMessage (store : MapStore) (gm : GoMessage) : Message :=
  ⟨gm.ID, gm.Body, gm.Timestamp, List.getD store gm.MetadataRef []⟩

/-- redis.go:48-54: the two backfill assignments `Send` performs on its local
copy of the message before marshaling. -/
def backfillGo (gm : GoMessage) (freshId : String) (now : Nat) : GoMessage :=
  let gm1 := if gm.ID = "" then { gm with ID := freshId } else gm
  if gm1.Timestamp = 0 then { gm1 with Timestamp := now } else gm1

structure SendEnv where
  freshId : String
  now : Nat
  publishErr : Option String
deriving DecidableEq

structure SendResult where
  error : Option QueueError
  published : List Json

/-- redis.go:45-68. Returns the (unchanged) store together with the error the
caller sees and the payloads handed to `client.Publish`. -/
def send (env : SendEnv) (store : MapStore) (gm : GoMessage) : MapStore × SendResult :=
  let message := backfillGo gm env.freshId env.now
  match marshalMessage (resolveMessage store message) with
  | Except.error e =>
      (store, ⟨some (QueueError.serializationError ("failed to marshal message: " ++ e)), []⟩)
  | Except.ok data =>
      match env.publishErr with
      | some e =>
          (store, ⟨some (QueueError.transportError ("failed to publish message: " ++ e)), [data]⟩)
      | none => (store, ⟨none, [data]⟩)

/-! ### `RedisQueue.Subscribe`, synchronous part (redis.go:70-88, 165-166) -/

structure SubscribeEnv where
  /-- The error result of the confirmation step `pubsub.Receive(ctx)`
  (redis.go:77); `none` means the broker confirmed the subscription. -/
  receiveErr : Option String
deriving DecidableEq

structure SubscribeResult where
  /-- Capacity of the returned message channel, `none` when no channel is
  returned. -/
  channelCapacity : Option Nat
  error : Option QueueError
  /-- Whether `pubsub.Close()` was called on the failure path before
  returning (redis.go:79). -/
  pubsubClosedEarly : Bool
deriving DecidableEq

/-- redis.go:70-88, 165-166: subscribe, then confirm via `pubsub.Receive`;
on confirmation failure close the pubsub and return the wrapped error and no
channel; on success create the capacity-100 output channel and return it. -/
def subscribe (env : SubscribeEnv) : SubscribeResult :=
  match env.receiveErr with
  | some e => ⟨none, some (QueueError.subscriptionError ("failed to subscribe: " ++ e)), true⟩
  | none => ⟨some 100, none, false⟩

/-! ### The subscription delivery task (redis.go:90-163)

The goroutine is a loop whose each iteration is resolved by external
readiness: which select arm fires, what payload the broker delivered, and —
after a successful decode — which arm of the inner send-select fires.  A run
of the task is therefore determined by a trace of `TaskEvent`s; a finite
trace models a prefix of the run (exit `none` = the task is still live).
Payloads are modelled at the JSON-value level; a syntactically invalid
payload behaves like any value of non-object shape: `unmarshalMessage`
rejects it. -/

/-- Outcome of the inner select (redis.go:142-152): the buffered send
succeeded, the stop signal fired while waiting, or the 1-second
`time.After` fired first. -/
inductive InnerOutcome where
  | sent
  | stopped
  | timedOut
deriving DecidableEq

/-- One resolution of the outer select (redis.go:105-118): the `done`
channel fired (with the outcomes of the two cleanup calls), the broker
channel was reported closed, the broker delivered a payload, or an
unexpected failure was raised at this point in the task. -/
inductive TaskEvent where
  | stop (unsubOk : Bool) (closeOk : Bool)
  | chanClosed
  | recv (payload : Json) (inner : InnerOutcome)
  | unexpectedFailure

/-- Reports to the logging collaborator (`slog`) made by the task, in
order. -/
inductive LogKind where
  | unsubscribeFailed
  | pubsubCloseFailed
  | decodeFailed
  | receivedInfo (id : String)
  | sendTimeout
  | panicRecovered
  | subscriptionClosedInfo
deriving DecidableEq

inductive ExitKind where
  | stopOuter
  | stopInner
  | brokerClosed
  | panicked
deriving DecidableEq

structure TaskState where
  delivered : List Message
  logs : List LogKind
  unsubscribeCalled : Bool
  pubsubCloseCalled : Bool
deriving DecidableEq

def initState : TaskState := ⟨[], [], false, false⟩

/-- The `for { select { ... } }` loop of the delivery goroutine
(redis.go:104-155), consuming the event trace until an exit or until the
trace is exhausted (`none`: the task is still blocked in a select). -/
def runLoop : List TaskEvent → TaskState → TaskState × Option ExitKind
  | [], s => (s, none)
  | TaskEvent.stop unsubOk closeOk :: _, s =>
      ({ s with
          unsubscribeCalled := true,
          pubsubCloseCalled := true,
          logs := s.logs ++ (if unsubOk then [] else [LogKind.unsubscribeFailed])
                         ++ (if closeOk then [] else [LogKind.pubsubCloseFailed]) },
       some ExitKind.stopOuter)
  | TaskEvent.chanClosed :: _, s => (s, some ExitKind.brokerClosed)
  | TaskEvent.unexpectedFailure :: _, s => (s, some ExitKind.panicked)
  | TaskEvent.recv payload inner :: rest, s =>
      match unmarshalMessage payload with
      | none => runLoop rest { s with logs := s.logs ++ [LogKind.decodeFailed] }
      | some m =>
          match inner with
          | InnerOutcome.sent =>
              runLoop rest { s with logs := s.logs ++ [LogKind.receivedInfo m.ID],
                                    delivered := s.delivered ++ [m] }
          | InnerOutcome.stopped =>
              ({ s with logs := s.logs ++ [LogKind.receivedInfo m.ID] },
               some ExitKind.stopInner)
          | InnerOutcome.timedOut =>
              runLoop rest { s with logs := s.logs ++ [LogKind.receivedInfo m.ID,
                                                       LogKind.sendTimeout] }

/-- The deferred function (redis.go:91-100): on any exit it recovers a
pending panic (reporting it), closes the output channel, and logs the
closure; it does not run while the task is still live. -/
def deferFinalize (s : TaskState) : Option ExitKind → TaskState
  | none => s
  | some ExitKind.panicked =>
      { s with logs := s.logs ++ [LogKind.panicRecovered, LogKind.subscriptionClosedInfo] }
  | some _ => { s with logs := s.logs ++ [LogKind.subscriptionClosedInfo] }

structure TaskResult where
  state : TaskState
  exit : Option ExitKind
  /-- How many times `close(msgChan)` ran. -/
  outChanCloseCount : Nat
  /-- Whether a failure escaped the goroutine (which would crash the whole
  process); the deferred `recover()` captures every panic, so it never
  does. -/
  processCrashed : Bool
deriving DecidableEq

/-- The whole delivery task over an event trace: the loop, then — if the
loop exited — the deferred recover/close/log. -/
def runTask (events : List TaskEvent) : TaskResult :=
  let r := runLoop events initState
  ⟨deferFinalize r.1 r.2, r.2, if r.2.isSome then 1 else 0, false⟩

/-- The successfully-decoded messages of a trace, in broker emission
order. -/
def decodedMessages : List TaskEvent → List Message
  | [] => []
  | TaskEvent.recv payload _ :: rest =>
      (match unmarshalMessage payload with
       | some m => m :: decodedMessages rest
       | none => decodedMessages rest)
  | _ :: rest => decodedMessages rest

def countDecodeFailed : List LogKind → Nat
  | [] => 0
  | LogKind.decodeFailed :: rest => countDecodeFailed rest + 1
  | _ :: rest => countDecodeFailed rest

theorem runLoop_append (l1 l2 : List TaskEvent) : ∀ s,
    runLoop (l1 ++ l2) s =
      (match runLoop l1 s with
       | (s', none) => runLoop l2 s'
       | (s', some k) => (s', some k)) := by
  induction l1 with
  | nil => intro s; simp [runLoop]
  | cons e rest ih =>
    intro s
    match e with
    | TaskEvent.stop uo co => simp [runLoop]
    | TaskEvent.chanClosed => simp [runLoop]
    | TaskEvent.unexpectedFailure => simp [runLoop]
    | TaskEvent.recv p inner =>
      cases hm : unmarshalMessage p with
      | none => simpa [runLoop, hm] using ih _
      | some m => cases inner <;> simp [runLoop, hm, ih]

/-- The loop never reads its accumulated log: running from states that
differ only in the log gives the same exit, deliveries and cleanup calls,
and appends the same log suffix. -/
theorem runLoop_logs_irrel (events : List TaskEvent) : ∀ d l1 l2 u p,
    (runLoop events ⟨d, l1, u, p⟩).2 = (runLoop events ⟨d, l2, u, p⟩).2 ∧
    (runLoop events ⟨d, l1, u, p⟩).1.delivered = (runLoop events ⟨d, l2, u, p⟩).1.delivered ∧
    (runLoop events ⟨d, l1, u, p⟩).1.unsubscribeCalled
      = (runLoop events ⟨d, l2, u, p⟩).1.unsubscribeCalled ∧
    (runLoop events ⟨d, l1, u, p⟩).1.pubsubCloseCalled
      = (runLoop events ⟨d, l2, u, p⟩).1.pubsubCloseCalled ∧
    ∃ δ, (runLoop events ⟨d, l1, u, p⟩).1.logs = l1 ++ δ ∧
         (runLoop events ⟨d, l2, u, p⟩).1.logs = l2 ++ δ := by
  induction events with
  | nil =>
    intro d l1 l2 u p
    exact ⟨rfl, rfl, rfl, rfl, [], by simp [runLoop], by simp [runLoop]⟩
  | cons e rest ih =>
    intro d l1 l2 u p
    match e with
    | TaskEvent.stop uo co =>
      refine ⟨rfl, rfl, rfl, rfl,
        (if uo then [] else [LogKind.unsubscribeFailed])
          ++ (if co then [] else [LogKind.pubsubCloseFailed]), ?_, ?_⟩ <;>
        simp [runLoop]
    | TaskEvent.chanClosed => exact ⟨rfl, rfl, rfl, rfl, [], by simp [runLoop], by simp [runLoop]⟩
    | TaskEvent.unexpectedFailure =>
      exact ⟨rfl, rfl, rfl, rfl, [], by simp [runLoop], by simp [runLoop]⟩
    | TaskEvent.recv p' inner =>
      cases hm : unmarshalMessage p' with
      | none =>
        have h := ih d (l1 ++ [LogKind.decodeFailed]) (l2 ++ [LogKind.decodeFailed]) u p
        obtain ⟨h1, h2, h3, h4, δ, h5, h6⟩ := h
        exact ⟨by simpa [runLoop, hm] using h1, by simpa [runLoop, hm] using h2,
          by simpa [runLoop, hm] using h3, by simpa [runLoop, hm] using h4,
          [LogKind.decodeFailed] ++ δ, by simpa [runLoop, hm] using h5,
          by simpa [runLoop, hm] using h6⟩
      | some m =>
        cases inner with
        | sent =>
          have h := ih (d ++ [m]) (l1 ++ [LogKind.receivedInfo m.ID])
            (l2 ++ [LogKind.receivedInfo m.ID]) u p
          obtain ⟨h1, h2, h3, h4, δ, h5, h6⟩ := h
          exact ⟨by simpa [runLoop, hm] using h1, by simpa [runLoop, hm] using h2,
            by simpa [runLoop, hm] using h3, by simpa [runLoop, hm] using h4,
            [LogKind.receivedInfo m.ID] ++ δ, by simpa [runLoop, hm] using h5,
            by simpa [runLoop, hm] using h6⟩
        | stopped =>
          exact ⟨by simp [runLoop, hm], by simp [runLoop, hm], by simp [runLoop, hm],
            by simp [runLoop, hm], [LogKind.receivedInfo m.ID],
            by simp [runLoop, hm], by simp [runLoop, hm]⟩
        | timedOut =>
          have h := ih d (l1 ++ [LogKind.receivedInfo m.ID, LogKind.sendTimeout])
            (l2 ++ [LogKind.receivedInfo m.ID, LogKind.sendTimeout]) u p
          obtain ⟨h1, h2, h3, h4, δ, h5, h6⟩ := h
          exact ⟨by simpa [runLoop, hm] using h1, by simpa [runLoop, hm] using h2,
            by simpa [runLoop, hm] using h3, by simpa [runLoop, hm] using h4,
            [LogKind.receivedInfo m.ID, LogKind.sendTimeout] ++ δ,
            by simpa [runLoop, hm] using h5, by simpa [runLoop, hm] using h6⟩

theorem countDecodeFailed_append (a b : List LogKind) :
    countDecodeFailed (a ++ b) = countDecodeFailed a + countDecodeFailed b := by
  induction a with
  | nil => simp [countDecodeFailed]
  | cons x rest ih => cases x <;> simp [countDecodeFailed, ih] <;> omega

/-- The deferred function only appends (decode-failure-free) log entries; it
never touches the delivered list. -/
theorem deferFinalize_logs (s : TaskState) (e : Option ExitKind) :
    ∃ t, (deferFinalize s e).logs = s.logs ++ t ∧ countDecodeFailed t = 0 ∧
      (deferFinalize s e).delivered = s.delivered := by
  cases e with
  | none => exact ⟨[], by simp [deferFinalize], rfl, rfl⟩
  | some k =>
    cases k with
    | panicked =>
      exact ⟨[LogKind.panicRecovered, LogKind.subscriptionClosedInfo],
        by simp [deferFinalize], rfl, rfl⟩
    | stopOuter => exact ⟨[LogKind.subscriptionClosedInfo], by simp [deferFinalize], rfl, rfl⟩
    | stopInner => exact ⟨[LogKind.subscriptionClosedInfo], by simp [deferFinalize], rfl, rfl⟩
    | brokerClosed => exact ⟨[LogKind.subscriptionClosedInfo], by simp [deferFinalize], rfl, rfl⟩

theorem runLoop_delivered_sublist (events : List TaskEvent) : ∀ s : TaskState,
    List.Sublist (runLoop events s).1.delivered (s.delivered ++ decodedMessages events) := by
  induction events with
  | nil =>
    intro s
    simp only [runLoop, decodedMessages, List.append_nil]
    exact List.Sublist.refl _
  | cons e rest ih =>
    intro s
    match e with
    | TaskEvent.stop uo co =>
      simpa [runLoop, decodedMessages] using List.sublist_append_left s.delivered _
    | TaskEvent.chanClosed =>
      simpa [runLoop, decodedMessages] using List.sublist_append_left s.delivered _
    | TaskEvent.unexpectedFailure =>
      simpa [runLoop, decodedMessages] using List.sublist_append_left s.delivered _
    | TaskEvent.recv p inner =>
      cases hm : unmarshalMessage p with
      | none => simpa [runLoop, decodedMessages, hm] using ih _
      | some m =>
        cases inner with
        | sent =>
          have h := ih { s with logs := s.logs ++ [LogKind.receivedInfo m.ID],
                                delivered := s.delivered ++ [m] }
          simp only [runLoop, hm, decodedMessages]
          simpa [List.append_assoc] using h
        | stopped =>
          simpa [runLoop, decodedMessages, hm] using List.sublist_append_left s.delivered _
        | timedOut =>
          have h := ih { s with logs := s.logs ++ [LogKind.receivedInfo m.ID,
                                                   LogKind.sendTimeout] }
          simp only [runLoop, hm, decodedMessages]
          exact List.Sublist.trans h
            (List.Sublist.append_left (List.sublist_cons_self m _) s.delivered)

/-! ### Specification lemmas for `send`, shared by the claims about it -/

theorem send_store_eq (env : SendEnv) (store : MapStore) (gm : GoMessage) :
    (send env store gm).1 = store := by
  cases hm : marshalMessage (resolveMessage store (backfillGo gm env.freshId env.now)) with
  | error e => simp [send, hm]
  | ok d => cases hp : env.publishErr <;> simp [send, hm, hp]

theorem send_error_eq (env : SendEnv) (store : MapStore) (gm : GoMessage) :
    (send env store gm).2.error
      = (match marshalMessage (resolveMessage store (backfillGo gm env.freshId env.now)) with
         | Except.error e =>
             some (QueueError.serializationError ("failed to marshal message: " ++ e))
         | Except.ok _ =>
             match env.publishErr with
             | some e => some (QueueError.transportError ("failed to publish message: " ++ e))
             | none => none) := by
  cases hm : marshalMessage (resolveMessage store (backfillGo gm env.freshId env.now)) with
  | error e => simp [send, hm]
  | ok d => cases hp : env.publishErr <;> simp [send, hm, hp]

theorem send_published_eq (env : SendEnv) (store : MapStore) (gm : GoMessage) :
    (send env store gm).2.published
      = (match marshalMessage (resolveMessage store (backfillGo gm env.freshId env.now)) with
         | Except.ok d => [d]
         | Except.error _ => []) := by
  cases hm : marshalMessage (resolveMessage store (backfillGo gm env.freshId env.now)) with
  | error e => simp [send, hm]
  | ok d => cases hp : env.publishErr <;> simp [send, hm, hp]

theorem resolve_backfill_timestamp (store : MapStore) (gm : GoMessage) (idX : String) (now : Nat) :
    (resolveMessage store (backfillGo gm idX now)).Timestamp
      = (if gm.Timestamp = 0 then now else gm.Timestamp) := by
  by_cases h1 : gm.ID = "" <;> by_cases h2 : gm.Timestamp = 0 <;>
    simp [backfillGo, resolveMessage, h1, h2]

theorem runTask_eq (events : List TaskEvent) :
    runTask events
      = ⟨deferFinalize (runLoop events initState).1 (runLoop events initState).2,
         (runLoop events initState).2,
         if (runLoop events initState).2.isSome then 1 else 0, false⟩ := rfl

/-! ### The claims -/

/-- Claim C1: on every exit path of the delivery task (stop signal, broker
channel closed, recovered panic) the output channel is closed exactly once;
a recovered unexpected failure is reported to the logging collaborator and
never crashes the process. -/
theorem c1_exit_closes_channel_once (events : List TaskEvent)
    (h : (runTask events).exit.isSome) :
    (runTask events).outChanCloseCount = 1 ∧
    (runTask events).processCrashed = false ∧
    ((runTask events).exit = some ExitKind.panicked →
      LogKind.panicRecovered ∈ (runTask events).state.logs) := by
  rw [runTask_eq] at h ⊢
  rcases he : (runLoop events initState).2 with _ | k
  · rw [he] at h
    simp at h
  · refine ⟨by simp, rfl, ?_⟩
    intro hp
    have hk : k = ExitKind.panicked := by simpa using hp
    subst hk
    simp [deferFinalize]

theorem c1_witness :
    (runTask [TaskEvent.unexpectedFailure]).exit.isSome ∧
    ((runTask [TaskEvent.unexpectedFailure]).outChanCloseCount = 1 ∧
     (runTask [TaskEvent.unexpectedFailure]).processCrashed = false ∧
     ((runTask [TaskEvent.unexpectedFailure]).exit = some ExitKind.panicked →
       LogKind.panicRecovered ∈ (runTask [TaskEvent.unexpectedFailure]).state.logs)) :=
  ⟨by decide, c1_exit_closes_channel_once [TaskEvent.unexpectedFailure] (by decide)⟩

/-- Claim C2: `Subscribe` returns success exactly when the synchronous
`pubsub.Receive` confirmation succeeds; on confirmation failure it closes the
partially-created pubsub, returns a `SubscriptionError`, and returns no
channel. -/
theorem c2_subscribe_confirmation (env : SubscribeEnv) :
    ((subscribe env).error = none ↔ env.receiveErr = none) ∧
    ((subscribe env).channelCapacity.isSome ↔ env.receiveErr = none) ∧
    (∀ e, env.receiveErr = some e →
      subscribe env
        = ⟨none, some (QueueError.subscriptionError ("failed to subscribe: " ++ e)), true⟩) := by
  obtain ⟨re⟩ := env
  cases re with
  | none =>
    refine ⟨by simp [subscribe], by simp [subscribe], ?_⟩
    intro e he
    simp at he
  | some e0 =>
    refine ⟨by simp [subscribe], by simp [subscribe], ?_⟩
    intro e he
    injection he with h
    subst h
    simp [subscribe]

theorem c2_witness :
    subscribe ⟨some "connection refused"⟩
      = ⟨none, some (QueueError.subscriptionError ("failed to subscribe: " ++ "connection refused")),
         true⟩ :=
  (c2_subscribe_confirmation ⟨some "connection refused"⟩).2.2 "connection refused" rfl

/-- Claim C3: decoding the bytes produced by `Send`'s JSON encoding of a
`Message` with the delivery task's JSON decoding yields the same `Message`
(all fields, in particular Body and Metadata, and ID/Timestamp when
pre-set), for every well-formed message the encoder accepts. -/
theorem c3_encode_decode_roundtrip (m : Message) (hbytes : ∀ b ∈ m.Body, b < 256)
    (_hbody : m.Body ≠ []) (ht : m.Timestamp < rfc3339MaxNanos) :
    ∃ j, marshalMessage m = Except.ok j ∧ unmarshalMessage j = some m :=
  marshal_unmarshal m hbytes ht

theorem c3_witness :
    ((∀ b ∈ ([104, 105] : List Nat), b < 256) ∧ ([104, 105] : List Nat) ≠ [] ∧
      (5 : Nat) < rfc3339MaxNanos) ∧
    ∃ j, marshalMessage ⟨"id-1", [104, 105], 5, [("source", "snb")]⟩ = Except.ok j ∧
      unmarshalMessage j = some ⟨"id-1", [104, 105], 5, [("source", "snb")]⟩ :=
  ⟨⟨by decide, by decide, by decide⟩,
   c3_encode_decode_roundtrip ⟨"id-1", [104, 105], 5, [("source", "snb")]⟩
     (by decide) (by decide) (by decide)⟩

/-- Claim C4: `Send` backfills an empty ID with the fresh UUID and a zero
Timestamp with the current time, leaves pre-set values unchanged (and Body
and Metadata untouched), and what it publishes is exactly the serialization
of that backfilled message. -/
theorem c4_send_backfill (env : SendEnv) (store : MapStore) (gm : GoMessage) :
    (resolveMessage store (backfillGo gm env.freshId env.now)).ID
      = (if gm.ID = "" then env.freshId else gm.ID) ∧
    (resolveMessage store (backfillGo gm env.freshId env.now)).Timestamp
      = (if gm.Timestamp = 0 then env.now else gm.Timestamp) ∧
    (resolveMessage store (backfillGo gm env.freshId env.now)).Body = gm.Body ∧
    (resolveMessage store (backfillGo gm env.freshId env.now)).Metadata
      = (resolveMessage store gm).Metadata ∧
    (send env store gm).2.published
      = (match marshalMessage (resolveMessage store (backfillGo gm env.freshId env.now)) with
         | Except.ok d => [d]
         | Except.error _ => []) := by
  refine ⟨?_, resolve_backfill_timestamp store gm env.freshId env.now, ?_, ?_,
    send_published_eq env store gm⟩ <;>
    (by_cases h1 : gm.ID = "" <;> by_cases h2 : gm.Timestamp = 0 <;>
      simp [backfillGo, resolveMessage, h1, h2])

/-- Claim C5: `Send` returns a `SerializationError` exactly when encoding
fails, a `TransportError` exactly when the publish call fails, `nil`
otherwise, and hands the payload to the broker at most once (no retry). -/
theorem c5_send_error_classification (env : SendEnv) (store : MapStore) (gm : GoMessage) :
    (send env store gm).2.error
      = (match marshalMessage (resolveMessage store (backfillGo gm env.freshId env.now)) with
         | Except.error e =>
             some (QueueError.serializationError ("failed to marshal message: " ++ e))
         | Except.ok _ =>
             match env.publishErr with
             | some e => some (QueueError.transportError ("failed to publish message: " ++ e))
             | none => none) ∧
    (send env store gm).2.published.length ≤ 1 := by
  refine ⟨send_error_eq env store gm, ?_⟩
  rw [send_published_eq]
  cases marshalMessage (resolveMessage store (backfillGo gm env.freshId env.now)) <;> simp

/-- Claim C10: `Send` takes the `Message` by value and never writes the
shared map store, so the caller's message — including the contents of its
`Metadata` map — is unchanged by the call, and the error result the caller
sees is independent of the generated UUID (a generated ID is never
observable to the sender). -/
theorem c10_send_no_caller_mutation (idA idB : String) (now : Nat) (pub : Option String)
    (store : MapStore) (gm : GoMessage) :
    (send ⟨idA, now, pub⟩ store gm).1 = store ∧
    resolveMessage (send ⟨idA, now, pub⟩ store gm).1 gm = resolveMessage store gm ∧
    (send ⟨idA, now, pub⟩ store gm).2.error = (send ⟨idB, now, pub⟩ store gm).2.error := by
  refine ⟨send_store_eq _ _ _, by rw [send_store_eq], ?_⟩
  rw [send_error_eq, send_error_eq]
  by_cases hge : rfc3339MaxNanos ≤ (if gm.Timestamp = 0 then now else gm.Timestamp)
  · have h1 : rfc3339MaxNanos ≤ (resolveMessage store (backfillGo gm idA now)).Timestamp := by
      rw [resolve_backfill_timestamp]; exact hge
    have h2 : rfc3339MaxNanos ≤ (resolveMessage store (backfillGo gm idB now)).Timestamp := by
      rw [resolve_backfill_timestamp]; exact hge
    simp [marshalMessage, h1, h2]
  · have h1 : ¬ rfc3339MaxNanos ≤ (resolveMessage store (backfillGo gm idA now)).Timestamp := by
      rw [resolve_backfill_timestamp]; exact hge
    have h2 : ¬ rfc3339MaxNanos ≤ (resolveMessage store (backfillGo gm idB now)).Timestamp := by
      rw [resolve_backfill_timestamp]; exact hge
    simp [marshalMessage, h1, h2]

/-- Claim C6: a broker payload that fails to decode is reported to the
logging collaborator and skipped: the task stays live, nothing about the
delivered stream or the exit changes, and only one extra decode-failure
report is produced. -/
theorem c6_malformed_payload_skipped (pre post : List TaskEvent) (bad : Json)
    (inner : InnerOutcome) (hbad : unmarshalMessage bad = none)
    (hlive : (runLoop pre initState).2 = none) :
    (runLoop (pre ++ [TaskEvent.recv bad inner]) initState).2 = none ∧
    (runTask (pre ++ TaskEvent.recv bad inner :: post)).state.delivered
      = (runTask (pre ++ post)).state.delivered ∧
    (runTask (pre ++ TaskEvent.recv bad inner :: post)).exit
      = (runTask (pre ++ post)).exit ∧
    countDecodeFailed (runTask (pre ++ TaskEvent.recv bad inner :: post)).state.logs
      = countDecodeFailed (runTask (pre ++ post)).state.logs + 1 := by
  rcases hpre : runLoop pre initState with ⟨s₀, e₀⟩
  rw [hpre] at hlive
  obtain rfl : e₀ = none := hlive
  obtain ⟨d₀, l₀, u₀, p₀⟩ := s₀
  have hfull : runLoop (pre ++ TaskEvent.recv bad inner :: post) initState
      = runLoop post ⟨d₀, l₀ ++ [LogKind.decodeFailed], u₀, p₀⟩ := by
    rw [runLoop_append, hpre]
    simp [runLoop, hbad]
  have hwo : runLoop (pre ++ post) initState = runLoop post ⟨d₀, l₀, u₀, p₀⟩ := by
    rw [runLoop_append, hpre]
  have hone : (runLoop (pre ++ [TaskEvent.recv bad inner]) initState).2 = none := by
    rw [runLoop_append, hpre]
    simp [runLoop, hbad]
  obtain ⟨hexit, hdel, _, _, δ, hlog1, hlog2⟩ :=
    runLoop_logs_irrel post d₀ (l₀ ++ [LogKind.decodeFailed]) l₀ u₀ p₀
  obtain ⟨t1, hl1, hc1, hd1⟩ :=
    deferFinalize_logs (runLoop post ⟨d₀, l₀ ++ [LogKind.decodeFailed], u₀, p₀⟩).1
      (runLoop post ⟨d₀, l₀ ++ [LogKind.decodeFailed], u₀, p₀⟩).2
  obtain ⟨t2, hl2, hc2, hd2⟩ :=
    deferFinalize_logs (runLoop post ⟨d₀, l₀, u₀, p₀⟩).1 (runLoop post ⟨d₀, l₀, u₀, p₀⟩).2
  refine ⟨hone, ?_, ?_, ?_⟩
  · rw [runTask_eq, runTask_eq, hfull, hwo]
    show (deferFinalize _ _).delivered = (deferFinalize _ _).delivered
    rw [hd1, hd2, hdel]
  · rw [runTask_eq, runTask_eq, hfull, hwo]
    exact hexit
  · rw [runTask_eq, runTask_eq, hfull, hwo]
    show countDecodeFailed (deferFinalize _ _).logs = countDecodeFailed (deferFinalize _ _).logs + 1
    rw [hl1, hl2, hlog1, hlog2]
    simp only [countDecodeFailed_append]
    rw [hc1, hc2]
    simp [countDecodeFailed]
    omega

theorem c6_witness :
    (unmarshalMessage Json.null = none ∧ (runLoop [] initState).2 = none) ∧
    ((runLoop ([] ++ [TaskEvent.recv Json.null InnerOutcome.sent]) initState).2 = none ∧
     (runTask ([] ++ TaskEvent.recv Json.null InnerOutcome.sent :: [])).state.delivered
       = (runTask ([] ++ [])).state.delivered ∧
     (runTask ([] ++ TaskEvent.recv Json.null InnerOutcome.sent :: [])).exit
       = (runTask ([] ++ [])).exit ∧
     countDecodeFailed (runTask ([] ++ TaskEvent.recv Json.null InnerOutcome.sent :: [])).state.logs
       = countDecodeFailed (runTask ([] ++ [])).state.logs + 1) :=
  ⟨⟨rfl, rfl⟩, c6_malformed_payload_skipped [] [] Json.null InnerOutcome.sent rfl rfl⟩

/-- Claim C7: the output channel is created with fixed capacity 100, and
when a decoded message cannot be handed over within the 1-second bounded
wait (and no stop fired during the wait), the task logs the timeout, drops
the message and continues with the rest of the broker stream. -/
theorem c7_capacity_and_backpressure_drop :
    (∀ env : SubscribeEnv, env.receiveErr = none →
      (subscribe env).channelCapacity = some 100) ∧
    (∀ (p : Json) (m : Message) (rest : List TaskEvent) (s : TaskState),
      unmarshalMessage p = some m →
      runLoop (TaskEvent.recv p InnerOutcome.timedOut :: rest) s
        = runLoop rest { s with logs := s.logs ++ [LogKind.receivedInfo m.ID,
                                                   LogKind.sendTimeout] }) := by
  constructor
  · intro env h
    obtain ⟨re⟩ := env
    cases re with
    | none => simp [subscribe]
    | some e => simp at h
  · intro p m rest s hm
    simp [runLoop, hm]

theorem c7_witness :
    (subscribe ⟨none⟩).channelCapacity = some 100 ∧
    runLoop [TaskEvent.recv (Json.obj []) InnerOutcome.timedOut] initState
      = runLoop [] { initState with
          logs := initState.logs ++ [LogKind.receivedInfo "", LogKind.sendTimeout] } :=
  ⟨c7_capacity_and_backpressure_drop.1 ⟨none⟩ rfl,
   c7_capacity_and_backpressure_drop.2 (Json.obj []) ⟨"", [], 0, []⟩ [] initState rfl⟩

/-- Claim C8 is violated by the code (recorded as a code bug): when the stop
signal is observed in the outer select the task does unsubscribe and close
the pubsub, but when it is observed during the inner bounded send wait
(redis.go:145-147) the task returns — despite its own cleanup comment —
without calling `pubsub.Unsubscribe` or `pubsub.Close`. -/
theorem c8_stop_inner_skips_unsubscribe :
    (runTask [TaskEvent.recv (Json.obj []) InnerOutcome.stopped]).exit
      = some ExitKind.stopInner ∧
    (runTask [TaskEvent.recv (Json.obj []) InnerOutcome.stopped]).state.unsubscribeCalled
      = false ∧
    (runTask [TaskEvent.recv (Json.obj []) InnerOutcome.stopped]).state.pubsubCloseCalled
      = false ∧
    (runTask [TaskEvent.stop true true]).state.unsubscribeCalled = true ∧
    (runTask [TaskEvent.stop true true]).state.pubsubCloseCalled = true := by
  refine ⟨rfl, rfl, rfl, rfl, rfl⟩

/-- Claim C9: the messages delivered on the output channel are a subsequence
of the successfully-decoded messages in broker emission order — never
reordered, only dropped (backpressure) or skipped (undecodable). -/
theorem c9_delivery_is_subsequence (events : List TaskEvent) :
    List.Sublist (runTask events).state.delivered (decodedMessages events) := by
  obtain ⟨t, _, _, hd⟩ :=
    deferFinalize_logs (runLoop events initState).1 (runLoop events initState).2
  rw [runTask_eq]
  show List.Sublist (deferFinalize _ _).delivered _
  rw [hd]
  simpa [initState] using runLoop_delivered_sublist events initState

end Macrochain
